import Mathlib

set_option maxRecDepth 100000

/-!
Verification of the conversational generation session engine of `web_chat.py`.

The embedding models the pieces of the program that the specified properties
talk about:
* the Python string operations the code uses (`in`, `split()`, `strip()`,
  `replace`, `endswith`, slicing), re-implemented over `List Char`;
* the streaming loop of `generate_stream` (lines 474-553) together with the
  termination / persistence step (lines 555-580), as a pure function from the
  engine's token stream to the emitted event frames and the updated history;
* the context-compaction block of `generate` (lines 388-406), with the
  summarization call abstracted as an oracle argument;
* the regenerate branch of `generate` (lines 373-381), with the random seed
  draw passed in as an argument;
* the preference store (`load_slider_preferences`, `save_slider_preferences`,
  `/save_preferences`), with the JSON file abstracted as either missing,
  corrupt (present but undecodable), or holding a decoded JSON value.

Parts of the loop with no effect on the emitted frames or the stored history
(the `recent_tokens` window feeding the engine-side repetition penalty, the
memory-pressure cache clearing, and the log prints) are deliberately omitted:
no stated property mentions them and they do not influence control flow.
-/

namespace WebChat

/-! ## Python string primitives over `List Char` -/

/-- `prefixMatch n l` is `true` iff `n` is a prefix of `l` (Boolean version). -/
def prefixMatch : List Char → List Char → Bool
  | [], _ => true
  | _ :: _, [] => false
  | a :: as, b :: bs => a == b && prefixMatch as bs

/-- `infixMatch n l` is `true` iff `n` occurs as a contiguous substring of `l`. -/
def infixMatch (needle : List Char) : List Char → Bool
  | [] => prefixMatch needle []
  | c :: rest => prefixMatch needle (c :: rest) || infixMatch needle rest

/-- Python's `needle in hay` substring test. -/
def containsSubstr (hay needle : String) : Bool :=
  infixMatch needle.data hay.data

/-- Python's `str.lower()` (ASCII is all that the code feeds it). -/
def pyLower (s : String) : String :=
  String.mk (s.data.map Char.toLower)

/-- Strip on character lists: drop leading and trailing whitespace. -/
def stripData (l : List Char) : List Char :=
  (((l.dropWhile Char.isWhitespace).reverse.dropWhile Char.isWhitespace).reverse)

/-- Python's `str.strip()` with no arguments. -/
def pyStrip (s : String) : String :=
  String.mk (stripData s.data)

/-- Python's `str.endswith(suffix)`. -/
def pyEndsWith (s suffix : String) : Bool :=
  prefixMatch suffix.data.reverse s.data.reverse

/-- Python's slice `s[:-n]` for `n ≥ 1`: everything but the last `n` characters. -/
def pyDropRight (s : String) (n : Nat) : String :=
  String.mk (s.data.take (s.data.length - n))

/-- Fuel-driven engine of `removeAllData` (structural recursion on the fuel so
that the kernel can evaluate it). -/
def removeAllAux (pat : List Char) : Nat → List Char → List Char
  | _, [] => []
  | 0, l => l
  | fuel + 1, c :: rest =>
    if pat ≠ [] ∧ prefixMatch pat (c :: rest) = true then
      removeAllAux pat fuel (rest.drop (pat.length - 1))
    else c :: removeAllAux pat fuel rest

/-- Python's `str.replace(pat, "")`: remove every (left-to-right,
non-overlapping) occurrence of `pat`.  The source only ever replaces with the
empty string. -/
def removeAllData (pat l : List Char) : List Char :=
  removeAllAux pat l.length l

/-- Python's `s.replace(pat, "")` on strings. -/
def pyRemoveAll (s pat : String) : String :=
  String.mk (removeAllData pat.data s.data)

/-- Accumulator-based engine of `pySplit`. -/
def splitWordsAux (cur : List Char) : List Char → List String
  | [] => if cur = [] then [] else [String.mk cur.reverse]
  | c :: rest =>
    if c.isWhitespace then
      if cur = [] then splitWordsAux [] rest
      else String.mk cur.reverse :: splitWordsAux [] rest
    else splitWordsAux (c :: cur) rest

/-- Python's `str.split()` with no arguments: split on whitespace runs,
discarding empty pieces. -/
def pySplit (s : String) : List String :=
  splitWordsAux [] s.data

/-- Python's slice `l[-n:]`: the last `n` elements (all of them if `n` exceeds
the length). -/
def sliceLast {α : Type} (n : Nat) (l : List α) : List α :=
  l.drop (l.length - n)

/-- Python's slice `l[:-n]` for `n ≥ 1`: everything but the last `n` elements. -/
def dropLastN {α : Type} (n : Nat) (l : List α) : List α :=
  l.take (l.length - n)

/-! ## Data model -/

/-- Message role, the `"role"` field of a history entry. -/
inductive Role
  | user
  | assistant
  | system
deriving DecidableEq, Repr

/-- One conversation-history entry `{"role": ..., "content": ...}`. -/
structure Turn where
  role : Role
  content : String
deriving DecidableEq, Repr

/-- One server-sent frame produced by `generate_stream`: a token frame
`data: {"token": ...}`, an error frame `data: {"error": ...}`, or the terminal
`data: {"done": true}` frame. -/
inductive Event
  | tok (s : String)
  | err (s : String)
  | done
deriving DecidableEq, Repr

/-- One step of the engine's lazy stream: either a yielded chunk (its `.text`
and whether `.finish_reason == "stop"`), or an exception raised while
producing the next chunk. -/
inductive StreamItem
  | item (text : String) (finish_stop : Bool)
  | raise (msg : String)
deriving DecidableEq, Repr

/-- Why the streaming loop stopped consuming the engine stream. -/
inductive BreakReason
  | pattern
  | templateTok
  | repetition
  | wrapUp
  | hardLimit
  | finishStop
  | exhausted
  | errored (msg : String)
deriving DecidableEq, Repr

/-! ## The literal string tables of `generate_stream` -/

/-- `stop_patterns` (web_chat.py lines 486-489). -/
def stop_patterns : List String :=
  ["User:", "\nUser", "Assistant:", "\nAssistant",
   "\nA:", "A:", "\nQ:", "Q:", "\n\n---", "Human:", "\nHuman"]

/-- `chat_template_tokens` (lines 492-495). -/
def chat_template_tokens : List String :=
  ["<|eot_id|>", "<|start_header_id|>", "<|end_header_id|>",
   "<|im_start|>", "<|im_end|>", "<s>", "</s>"]

/-- `template_tokens` used during cleanup (lines 559-563). -/
def cleanup_template_tokens : List String :=
  ["<|eot_id|>", "<|start_header_id|>", "<|end_header_id|>",
   "<|im_start|>", "<|im_end|>", "<s>", "</s>", "<|assistant|>",
   "<|user|>", "<|system|>"]

/-- `role_patterns` used during cleanup (line 568). -/
def role_patterns : List String :=
  ["Assistant:", "User:", "Human:", "AI:"]

/-- The sentence-ending tokens of the wrap-up check (line 539). -/
def sentence_enders : List String :=
  [".", "!", "?", "\n"]

/-- The closing-phrase cues of the wrap-up check (lines 542-543). -/
def closing_phrases : List String :=
  ["in conclusion", "finally", "to summarize", "overall", "in summary"]

/-! ## The streaming loop -/

/-- The per-generation mutable state of `generate_stream`'s loop, plus the
frames emitted so far. -/
structure St where
  full_response : String
  token_count : Nat
  last_50_tokens : List String
  events : List Event
deriving DecidableEq, Repr

/-- State at loop entry (lines 450-452). -/
def initSt : St :=
  { full_response := "", token_count := 0, last_50_tokens := [], events := [] }

/-- Python's `"".join(pieces)`. -/
def concatStrs (l : List String) : String :=
  l.foldr (· ++ ·) ""

/-- The repetition test of lines 520-525, evaluated on the (already updated)
50-token window: join the last 40 tokens, split into words, and compare the
unique-word count against a quarter of the word count.  The Python code
compares `unique_words / len(words) < 0.25` in float arithmetic; for the
integer ranges reachable here (≤ 50 tokens in the window) that comparison is
exactly `4 * unique_words < len(words)`, since `0.25` is an exact binary
float and the quotient of two small naturals rounds by far less than the
distance `1/(4*len)` separating the two sides. -/
def repTrigger (last50 : List String) : Bool :=
  let words := pySplit (concatStrs (sliceLast 40 last50))
  decide (words.length > 15) && decide (4 * words.dedup.length < words.length)

/-- The closing-phrase test of lines 541-543 on the last 10 window tokens. -/
def wrapTrigger (last50 : List String) : Bool :=
  closing_phrases.any fun p =>
    containsSubstr (pyLower (concatStrs (sliceLast 10 last50))) p

/-- The state update for an accepted token (lines 505-516): extend the
accumulated text, bump the counter, and slide the 50-token window. -/
def stepAccept (st : St) (text : String) : St :=
  let tc := st.token_count + 1
  let w := st.last_50_tokens ++ [text]
  let w := if w.length > 50 then w.tail else w
  { full_response := st.full_response ++ text
    token_count := tc
    last_50_tokens := w
    events := st.events }

/-- An accepted token that also got yielded (lines 505-516 plus the yield at
line 550): `stepAccept` followed by appending the token frame. -/
def acceptYield (st : St) (text : String) : St :=
  { stepAccept st text with events := st.events ++ [.tok text] }

/-- The `for response in stream_generate(...)` loop of lines 474-553, with the
exception handler of lines 577-578 folded in (an engine failure while
producing the next chunk lands in the `except` clause, which emits one error
frame and abandons the loop).  Checks appear in source order: stop-pattern
and template-token tests on the would-be accumulated text (before the token
is accepted), then the repetition check, the wrap-up nudge, the hard
`max_tokens` limit (all before the yield), then the yield itself and the
`finish_reason == "stop"` test. -/
def runLoop (max_tokens : Nat) (st : St) : List StreamItem → St × BreakReason
  | [] => (st, .exhausted)
  | .raise msg :: _ =>
    ({ st with events := st.events ++ [.err msg] }, .errored msg)
  | .item text finish_stop :: rest =>
    if stop_patterns.any (fun p => containsSubstr (st.full_response ++ text) p) then
      (st, .pattern)
    else if chat_template_tokens.any
        (fun p => containsSubstr (st.full_response ++ text) p) then
      (st, .templateTok)
    else if (stepAccept st text).token_count > 50 ∧
        (stepAccept st text).token_count % 25 = 0 ∧
        repTrigger (stepAccept st text).last_50_tokens = true then
      (stepAccept st text, .repetition)
    else if 768 ≤ (stepAccept st text).token_count ∧ text ∈ sentence_enders ∧
        wrapTrigger (stepAccept st text).last_50_tokens = true then
      (stepAccept st text, .wrapUp)
    else if max_tokens ≤ (stepAccept st text).token_count then
      (stepAccept st text, .hardLimit)
    else if finish_stop then (acceptYield st text, .finishStop)
    else runLoop max_tokens (acceptYield st text) rest

/-- One step of the trailing-role-indicator cleanup of lines 567-571:
`if cleaned_response.endswith(pattern): cleaned_response =
cleaned_response[:-len(pattern)].strip()`. -/
def roleStrip (acc p : String) : String :=
  if pyEndsWith acc p then pyStrip (pyDropRight acc p.data.length) else acc

/-- The cleanup of lines 556-571: strip whitespace, remove leaked template
tokens, then strip each trailing role indicator (one pass over the four
patterns, each tried once, on the evolving string). -/
def cleanResponse (full : String) : String :=
  role_patterns.foldl roleStrip
    (cleanup_template_tokens.foldl (fun acc t => pyRemoveAll acc t) (pyStrip full))

/-- Everything observable about one `generate_stream` run. -/
structure GenResult where
  events : List Event
  history : List Turn
  reason : BreakReason
  final_response : String
deriving DecidableEq, Repr

/-- The whole generator body of `generate_stream` (lines 430-580): run the
loop, then — unless an engine exception aborted the attempt — persist the
cleaned non-blank response as an assistant turn (lines 555-573), and finally
emit the `done` frame (line 580). -/
def generateStreamModel (max_tokens : Nat) (history : List Turn)
    (stream : List StreamItem) : GenResult :=
  let r := runLoop max_tokens initSt stream
  let st := r.1
  match r.2 with
  | .errored m => ⟨st.events ++ [.done], history, .errored m, st.full_response⟩
  | reason =>
    if pyStrip st.full_response ≠ "" then
      ⟨st.events ++ [.done],
       history ++ [⟨.assistant, cleanResponse st.full_response⟩],
       reason, st.full_response⟩
    else
      ⟨st.events ++ [.done], history, reason, st.full_response⟩

/-- Is this event a token frame? -/
def isTokEvent : Event → Bool
  | .tok _ => true
  | _ => false

/-- The text carried by a token frame (empty for the other frames). -/
def eventText : Event → Option String
  | .tok s => some s
  | _ => none

/-- Concatenation of the token frames of an event list: the text a streaming
client reassembles. -/
def tokensText (evs : List Event) : String :=
  concatStrs (evs.filterMap eventText)

/-! ## Auxiliary notions used by the statements and proofs -/

/-- Characters that occur in no entry of `stop_patterns` nor of
`chat_template_tokens`: every such pattern contains one of `:`, newline,
`<`, `-`. -/
def safeChar (c : Char) : Bool :=
  !(c == ':' || c == '\n' || c == '<' || c == '-')

/-- A text all of whose characters are safe, hence one that can never
complete a stop pattern or chat-template delimiter. -/
def safeText (s : String) : Bool :=
  s.data.all safeChar

/-- A stream element that is an ordinary chunk with safe text and no
engine-side stop signal. -/
def safeItem : StreamItem → Bool
  | .item t finish_stop => !finish_stop && safeText t
  | .raise _ => false

/-- The `.text` of a stream element (the raise case is unused under the
hypotheses that mention it). -/
def itemText : StreamItem → String
  | .item t _ => t
  | .raise _ => ""

/-- Iterated `acceptYield`: what the loop state becomes after a run of
accepted-and-yielded chunks. -/
def advance (st : St) : List StreamItem → St
  | [] => st
  | it :: rest => advance (acceptYield st (itemText it)) rest

/-- No stop pattern and no (streaming-checked) template token occurs in `s`:
the invariant the loop maintains for the accumulated response. -/
def patternFree (s : String) : Bool :=
  (stop_patterns ++ chat_template_tokens).all fun p => !containsSubstr s p

/-- The template delimiters removed at cleanup but never checked during
streaming. -/
def extra_template_tokens : List String :=
  ["<|assistant|>", "<|user|>", "<|system|>"]

/-- None of the cleanup-only template delimiters occurs in `s`. -/
def cleanupFree (s : String) : Bool :=
  extra_template_tokens.all fun p => !containsSubstr s p

/-- The alternating two-word phrase of the repetition scenario. -/
def repToken (i : Nat) : String :=
  if i % 2 = 0 then "alpha " else "beta "

/-- An engine stream that repeats a 2-word phrase for `n` tokens. -/
def repStream (n : Nat) : List StreamItem :=
  (List.range n).map fun i => .item (repToken i) false

/-- A 12-chunk synthetic stream of distinct harmless words, longer than the
`max_tokens = 10` budget a request asks for. -/
def c1DemoStream : List StreamItem :=
  (List.range 12).map fun i => .item ("w" ++ toString i ++ " ") false

/-! ## Context compaction (lines 388-406 of `generate`) -/

/-- The compaction block: when the history exceeds 100 turns, keep the last
50 verbatim and replace everything older by one synthetic system turn built
from the base system prompt and a summary of the removed prefix.  The
summarization inference call is abstracted as the oracle `summarize`. -/
def compactContext (summarize : List Turn → String) (system_prompt : String)
    (history : List Turn) : List Turn :=
  if history.length > 100 then
    let recent_messages := sliceLast 50 history
    let messages_to_summarize := dropLastN 50 history
    if messages_to_summarize ≠ [] then
      ⟨.system, system_prompt ++ "\n\nStory context: " ++ summarize messages_to_summarize⟩
        :: recent_messages
    else history
  else history

/-! ## The regenerate branch (lines 373-381 of `generate`) -/

/-- The seed/history update at the head of `generate`.  On `regenerate`, the
session seed is replaced by a fresh `random.randint(1, 1000000)` draw (passed
in as `draw`) and a trailing assistant turn, if any, is dropped; otherwise
the user prompt is appended. -/
def regenerateStep (draw : Nat) (current_seed : Nat) (history : List Turn)
    (regenerate : Bool) (user_input : String) : Nat × List Turn :=
  if regenerate then
    (draw,
      match history.getLast? with
      | some t => if t.role = .assistant then history.dropLast else history
      | none => history)
  else
    (current_seed, history ++ [⟨.user, user_input⟩])

/-! ## Preference store -/

/-- A decoded JSON value as Flask's `request.get_json()` / `json.load`
produce it (`None` is how `get_json` reports an absent or undecodable body). -/
inductive PyJson
  | pynull
  | pybool (b : Bool)
  | pynum (q : ℚ)
  | pystr (s : String)
  | pyarr (xs : List PyJson)
  | pyobj (kvs : List (String × PyJson))

/-- Python truthiness of a decoded JSON value. -/
def pyTruthy : PyJson → Bool
  | .pynull => false
  | .pybool b => b
  | .pynum q => decide (q ≠ 0)
  | .pystr s => decide (s ≠ "")
  | .pyarr xs => !xs.isEmpty
  | .pyobj kvs => !kvs.isEmpty

/-- Python's `isinstance(x, dict)` on a decoded JSON value. -/
def isDict : PyJson → Bool
  | .pyobj _ => true
  | _ => false

/-- The state of `slider_preferences.json` on disk: absent, present but not
valid JSON, or holding the serialized JSON value `v` (Python's
`json.dump`/`json.load` round-trip decoded values exactly for string-keyed
objects, so the file is modelled by the value it decodes to). -/
inductive PrefStore
  | missing
  | corrupt
  | stored (v : PyJson)

/-- The defaults of `load_slider_preferences` (lines 102-108). -/
def defaultPreferences : PyJson :=
  .pyobj [("temperature", .pynum (0.7 : ℚ)),
          ("top_p", .pynum (0.9 : ℚ)),
          ("top_k", .pynum (50 : ℚ)),
          ("repetition_penalty", .pynum (1.1 : ℚ)),
          ("max_tokens", .pynum (1024 : ℚ))]

/-- `load_slider_preferences` (lines 95-108): the `try` catches only
`FileNotFoundError`, so a missing file yields the defaults while an existing
but undecodable file lets `json.JSONDecodeError` escape to the caller. -/
def load_slider_preferences : PrefStore → Except String PyJson
  | .missing => .ok defaultPreferences
  | .corrupt => .error "json.decoder.JSONDecodeError"
  | .stored v => .ok v

/-- `save_slider_preferences` (lines 110-113): unconditionally rewrite the
file with the serialized payload. -/
def save_slider_preferences (preferences : PyJson) (_store : PrefStore) : PrefStore :=
  .stored preferences

/-- The `/save_preferences` route (lines 306-315): reject a falsy or
non-dict payload with HTTP 400 leaving the store alone, otherwise save and
answer HTTP 200. -/
def save_preferences (payload : PyJson) (store : PrefStore) : Nat × PrefStore :=
  if pyTruthy payload = false ∨ isDict payload = false then
    (400, store)
  else
    (200, save_slider_preferences payload store)

/-- The recognized preference keys, in the order the defaults list them. -/
def recognizedKeys : List String :=
  ["temperature", "top_p", "top_k", "repetition_penalty", "max_tokens"]

/-- Modelled from the spec: "a well-formed mapping of the five recognized
keys" — a JSON object whose keys are exactly the five recognized ones, each
occurring once.  This follows the spec's words (§4.5, §7) and exists only to
be compared against what `save_preferences` actually checks. -/
def wellFormedPrefs : PyJson → Bool
  | .pyobj kvs =>
    let ks := kvs.map Prod.fst
    decide (ks.Nodup) && recognizedKeys.all (fun k => k ∈ ks) &&
      ks.all (fun k => k ∈ recognizedKeys)
  | _ => false

/-! # Theorems -/

/-! ## Characterizations of the string primitives -/

theorem prefixMatch_iff : ∀ n l : List Char, prefixMatch n l = true ↔ n <+: l
  | [], l => by simp [prefixMatch]
  | a :: as, [] => by simp [prefixMatch]
  | a :: as, b :: bs => by
    simp [prefixMatch, prefixMatch_iff as bs, List.cons_prefix_cons, and_comm]

theorem infixMatch_iff : ∀ n l : List Char, infixMatch n l = true ↔ n <:+: l
  | n, [] => by
    simp [infixMatch, prefixMatch_iff]
  | n, c :: rest => by
    simp [infixMatch, prefixMatch_iff, infixMatch_iff n rest, List.infix_cons_iff]

theorem containsSubstr_iff {hay needle : String} :
    containsSubstr hay needle = true ↔ needle.data <:+: hay.data :=
  infixMatch_iff needle.data hay.data

theorem containsSubstr_false {hay needle : String} :
    containsSubstr hay needle = false ↔ ¬needle.data <:+: hay.data := by
  rw [← containsSubstr_iff, Bool.not_eq_true, eq_comm]

theorem pyEndsWith_iff {s p : String} :
    pyEndsWith s p = true ↔ p.data <:+ s.data := by
  rw [pyEndsWith, prefixMatch_iff, ← List.reverse_prefix]

theorem data_append (a b : String) : (a ++ b).data = a.data ++ b.data := rfl

/-- A substring of a string without an occurrence of `p` has no occurrence of
`p` either. -/
theorem containsSubstr_false_mono {s t p : String} (hsub : s.data <:+: t.data)
    (h : containsSubstr t p = false) : containsSubstr s p = false := by
  rw [containsSubstr_false] at h ⊢
  exact fun hin => h (hin.trans hsub)

theorem concatStrs_append (l₁ l₂ : List String) :
    concatStrs (l₁ ++ l₂) = concatStrs l₁ ++ concatStrs l₂ := by
  induction l₁ with
  | nil => simp [concatStrs]
  | cons a as ih => simp [concatStrs, List.foldr] at ih ⊢; rw [ih, String.append_assoc]

theorem concatStrs_cons (a : String) (l : List String) :
    concatStrs (a :: l) = a ++ concatStrs l := rfl

/-! ## The cleanup operations only shrink the string -/

theorem dropWhile_isSuffix (p : Char → Bool) (l : List Char) :
    l.dropWhile p <:+ l := List.dropWhile_suffix p

theorem stripData_sub (l : List Char) : stripData l <:+: l := by
  unfold stripData
  have h1 : l.dropWhile Char.isWhitespace <:+ l := List.dropWhile_suffix _
  have h2 : ((l.dropWhile Char.isWhitespace).reverse.dropWhile Char.isWhitespace).reverse
      <+: l.dropWhile Char.isWhitespace := by
    rw [← List.reverse_suffix]
    simpa using List.dropWhile_suffix (l := (l.dropWhile Char.isWhitespace).reverse)
      Char.isWhitespace
  exact h2.isInfix.trans h1.isInfix

theorem pyStrip_data_sub (s : String) : (pyStrip s).data <:+: s.data :=
  stripData_sub s.data

theorem pyDropRight_data_isPrefix (s : String) (n : Nat) :
    (pyDropRight s n).data <+: s.data := by
  simpa [pyDropRight] using List.take_prefix (s.data.length - n) s.data

theorem removeAllAux_of_absent (pat : List Char) :
    ∀ (fuel : Nat) (l : List Char), ¬pat <:+: l → removeAllAux pat fuel l = l := by
  intro fuel
  induction fuel with
  | zero => intro l _; cases l <;> rfl
  | succ fuel ih =>
    intro l hl
    cases l with
    | nil => rfl
    | cons c rest =>
      rw [removeAllAux, if_neg, ih rest]
      · exact fun h => hl (h.trans (List.suffix_cons c rest).isInfix)
      · rintro ⟨-, hpm⟩
        exact hl ((prefixMatch_iff pat (c :: rest)).mp hpm).isInfix

/-- `s.replace(pat, "")` is the identity when `pat` does not occur in `s`. -/
theorem pyRemoveAll_of_not_contains {s pat : String}
    (h : containsSubstr s pat = false) : pyRemoveAll s pat = s := by
  rw [pyRemoveAll, removeAllData, removeAllAux_of_absent pat.data s.data.length s.data
    (containsSubstr_false.mp h)]

theorem roleStrip_shrinks (acc p : String) :
    (roleStrip acc p).data <:+: acc.data := by
  rw [roleStrip]
  split
  · exact (pyStrip_data_sub _).trans (pyDropRight_data_isPrefix acc _).isInfix
  · exact List.infix_rfl

theorem foldl_roleStrip_shrinks (ps : List String) :
    ∀ acc : String, (ps.foldl roleStrip acc).data <:+: acc.data := by
  induction ps with
  | nil => intro acc; exact List.infix_rfl
  | cons p ps ih =>
    intro acc
    exact (ih (roleStrip acc p)).trans (roleStrip_shrinks acc p)

/-! ## Safe characters can never complete a stop pattern -/

theorem unsafe_char_of_pattern :
    ∀ p ∈ stop_patterns ++ chat_template_tokens ++ extra_template_tokens,
      ∃ c ∈ p.data, safeChar c = false := by decide

theorem mem_data_of_contains {hay needle : String}
    (h : containsSubstr hay needle = true) : ∀ c ∈ needle.data, c ∈ hay.data :=
  fun _ hc => (containsSubstr_iff.mp h).subset hc

theorem not_contains_of_safe {s p : String} (hs : safeText s = true)
    (hp : ∃ c ∈ p.data, safeChar c = false) : containsSubstr s p = false := by
  obtain ⟨c, hcp, hcu⟩ := hp
  cases hcon : containsSubstr s p with
  | false => rfl
  | true =>
    have : c ∈ s.data := mem_data_of_contains hcon c hcp
    have := (List.all_eq_true.mp hs) c this
    simp [hcu] at this

theorem safeText_append {a b : String} (ha : safeText a = true)
    (hb : safeText b = true) : safeText (a ++ b) = true := by
  simp only [safeText] at ha hb
  simp [safeText, data_append, List.all_append, ha, hb]

theorem stop_any_false_of_safe {s : String} (hs : safeText s = true) :
    stop_patterns.any (fun p => containsSubstr s p) = false := by
  rw [List.any_eq_false]
  intro p hp
  simp only [Bool.not_eq_true]
  exact not_contains_of_safe hs
    (unsafe_char_of_pattern p
      (List.mem_append.mpr (Or.inl (List.mem_append.mpr (Or.inl hp)))))

theorem template_any_false_of_safe {s : String} (hs : safeText s = true) :
    chat_template_tokens.any (fun p => containsSubstr s p) = false := by
  rw [List.any_eq_false]
  intro p hp
  simp only [Bool.not_eq_true]
  exact not_contains_of_safe hs
    (unsafe_char_of_pattern p
      (List.mem_append.mpr (Or.inl (List.mem_append.mpr (Or.inr hp)))))

/-! ## Elementary facts about the loop state updates -/

theorem str_append_empty (s : String) : s ++ "" = s := by
  show String.mk (s.data ++ []) = s
  rw [List.append_nil]

@[simp] theorem stepAccept_full_response (st : St) (t : String) :
    (stepAccept st t).full_response = st.full_response ++ t := rfl

@[simp] theorem stepAccept_token_count (st : St) (t : String) :
    (stepAccept st t).token_count = st.token_count + 1 := rfl

@[simp] theorem stepAccept_events (st : St) (t : String) :
    (stepAccept st t).events = st.events := rfl

@[simp] theorem acceptYield_full_response (st : St) (t : String) :
    (acceptYield st t).full_response = st.full_response ++ t := rfl

@[simp] theorem acceptYield_token_count (st : St) (t : String) :
    (acceptYield st t).token_count = st.token_count + 1 := rfl

@[simp] theorem acceptYield_events (st : St) (t : String) :
    (acceptYield st t).events = st.events ++ [Event.tok t] := rfl

theorem tokensText_append (a b : List Event) :
    tokensText (a ++ b) = tokensText a ++ tokensText b := by
  rw [tokensText, List.filterMap_append, concatStrs_append]
  rfl

theorem tokensText_single_tok (t : String) : tokensText [Event.tok t] = t := by
  show t ++ "" = t
  exact str_append_empty t

theorem safeItem_elim {it : StreamItem} (h : safeItem it = true) :
    ∃ t, it = .item t false ∧ safeText t = true := by
  cases it with
  | item t f =>
    cases f with
    | false => exact ⟨t, rfl, by simpa [safeItem] using h⟩
    | true => simp [safeItem] at h
  | raise m => simp [safeItem] at h

theorem advance_events : ∀ (items : List StreamItem) (st : St),
    (advance st items).events
      = st.events ++ items.map fun it => Event.tok (itemText it) := by
  intro items
  induction items with
  | nil => intro st; simp [advance]
  | cons it rest ih => intro st; simp [advance, ih]

theorem advance_token_count : ∀ (items : List StreamItem) (st : St),
    (advance st items).token_count = st.token_count + items.length := by
  intro items
  induction items with
  | nil => intro st; simp [advance]
  | cons it rest ih => intro st; simp [advance, ih]; omega

theorem advance_safeText : ∀ (items : List StreamItem) (st : St),
    items.all safeItem = true → safeText st.full_response = true →
    safeText (advance st items).full_response = true := by
  intro items
  induction items with
  | nil => intro st _ hs; simpa [advance] using hs
  | cons it rest ih =>
    intro st hall hs
    rw [List.all_cons, Bool.and_eq_true] at hall
    obtain ⟨t, rfl, hts⟩ := safeItem_elim hall.1
    exact ih (acceptYield st t) hall.2
      (by rw [acceptYield_full_response]; exact safeText_append hs hts)

/-! ## A run of harmless tokens is consumed without any break -/

theorem runLoop_safe_append (mt : Nat) :
    ∀ (items : List StreamItem) (st : St) (rest : List StreamItem),
      items.all safeItem = true →
      safeText st.full_response = true →
      st.token_count + items.length ≤ 74 →
      st.token_count + items.length < mt →
      runLoop mt st (items ++ rest) = runLoop mt (advance st items) rest := by
  intro items
  induction items with
  | nil => intro st rest _ _ _ _; simp [advance]
  | cons it items ih =>
    intro st rest hall hsafe h74 hmt
    rw [List.all_cons, Bool.and_eq_true] at hall
    obtain ⟨t, rfl, hts⟩ := safeItem_elim hall.1
    have htest : safeText (st.full_response ++ t) = true := safeText_append hsafe hts
    have hlen : st.token_count + (items.length + 1) ≤ 74 := by
      simpa [List.length_cons] using h74
    have hlen2 : st.token_count + (items.length + 1) < mt := by
      simpa [List.length_cons] using hmt
    rw [List.cons_append, runLoop]
    rw [stop_any_false_of_safe htest, template_any_false_of_safe htest]
    simp only [Bool.false_eq_true, if_false, stepAccept_token_count]
    rw [if_neg (by rintro ⟨h1, h2, -⟩; omega),
        if_neg (by rintro ⟨h1, -, -⟩; omega),
        if_neg (by omega)]
    have : advance st (StreamItem.item t false :: items)
        = advance (acceptYield st t) items := by
      simp [advance, itemText]
    rw [this]
    exact ih (acceptYield st t) rest hall.2
      (by rw [acceptYield_full_response]; exact htest)
      (by simp; omega) (by simp; omega)

/-! ## Loop invariants -/

theorem patternFree_of_any_false {s : String}
    (h1 : stop_patterns.any (fun p => containsSubstr s p) = false)
    (h2 : chat_template_tokens.any (fun p => containsSubstr s p) = false) :
    patternFree s = true := by
  rw [patternFree, List.all_eq_true]
  intro p hp
  rw [List.mem_append] at hp
  rcases hp with hp | hp
  · have := (List.any_eq_false.mp h1) p hp
    simpa using this
  · have := (List.any_eq_false.mp h2) p hp
    simpa using this

/-- The accumulated response never contains a stop pattern or a
streaming-checked template token: the pattern check runs on
`full_response + token` before the token is appended. -/
theorem runLoop_patternFree (mt : Nat) :
    ∀ (items : List StreamItem) (st : St),
      patternFree st.full_response = true →
      patternFree (runLoop mt st items).1.full_response = true := by
  intro items
  induction items with
  | nil => intro st h; simpa [runLoop] using h
  | cons it items ih =>
    intro st h
    cases it with
    | raise m => simpa [runLoop] using h
    | item t f =>
      rw [runLoop]
      split
      · simpa using h
      · split
        · simpa using h
        · rename_i h1 h2
          have hfree : patternFree (st.full_response ++ t) = true :=
            patternFree_of_any_false (by simpa using h1) (by simpa using h2)
          split
          · simpa using hfree
          · split
            · simpa using hfree
            · split
              · simpa using hfree
              · split
                · simpa using hfree
                · exact ih _ (by simpa using hfree)

/-- The text a client reassembles from the emitted token frames is a prefix
of the accumulated response (the final token of an attempt may be counted
without having been emitted). -/
theorem runLoop_events_text (mt : Nat) :
    ∀ (items : List StreamItem) (st : St),
      tokensText st.events = st.full_response →
      (tokensText (runLoop mt st items).1.events).data
        <+: (runLoop mt st items).1.full_response.data := by
  intro items
  induction items with
  | nil =>
    intro st h
    rw [runLoop]
    rw [show ((st, BreakReason.exhausted)).1 = st from rfl, h]
  | cons it items ih =>
    intro st h
    cases it with
    | raise m =>
      rw [runLoop]
      show (tokensText (st.events ++ [Event.err m])).data <+: st.full_response.data
      rw [tokensText_append, show tokensText [Event.err m] = "" from rfl,
        str_append_empty, h]
    | item t f =>
      rw [runLoop]
      split
      · rw [show ∀ r, ((st, r) : St × BreakReason).1 = st from fun _ => rfl, h]
      · split
        · rw [show ∀ r, ((st, r) : St × BreakReason).1 = st from fun _ => rfl, h]
        · split
          · show (tokensText (stepAccept st t).events).data
              <+: (stepAccept st t).full_response.data
            rw [stepAccept_events, stepAccept_full_response, h, data_append]
            exact List.prefix_append _ _
          · split
            · show (tokensText (stepAccept st t).events).data
                <+: (stepAccept st t).full_response.data
              rw [stepAccept_events, stepAccept_full_response, h, data_append]
              exact List.prefix_append _ _
            · split
              · show (tokensText (stepAccept st t).events).data
                  <+: (stepAccept st t).full_response.data
                rw [stepAccept_events, stepAccept_full_response, h, data_append]
                exact List.prefix_append _ _
              · split
                · show (tokensText (acceptYield st t).events).data
                    <+: (acceptYield st t).full_response.data
                  rw [acceptYield_events, acceptYield_full_response,
                    tokensText_append, tokensText_single_tok, h]
                · exact ih _ (by rw [acceptYield_events, acceptYield_full_response,
                    tokensText_append, tokensText_single_tok, h])

/-- When the loop ends because the engine raised, the emitted frames are the
already-yielded token frames followed by exactly one error frame. -/
theorem runLoop_errored (mt : Nat) :
    ∀ (items : List StreamItem) (st : St) (msg : String),
      (∀ e ∈ st.events, isTokEvent e = true) →
      (runLoop mt st items).2 = .errored msg →
      ∃ es, (runLoop mt st items).1.events = es ++ [Event.err msg]
        ∧ ∀ e ∈ es, isTokEvent e = true := by
  intro items
  induction items with
  | nil => intro st msg _ hr; simp [runLoop] at hr
  | cons it items ih =>
    intro st msg hall hr
    cases it with
    | raise m =>
      rw [runLoop] at hr ⊢
      obtain rfl : m = msg := by
        simpa using congrArg (fun r : BreakReason =>
          match r with | .errored s => s | _ => "") hr
      exact ⟨st.events, rfl, hall⟩
    | item t f =>
      rcases hres : runLoop mt st (StreamItem.item t f :: items) with ⟨st1, r1⟩
      rw [hres] at hr
      rw [runLoop] at hres
      split at hres
      · cases hres; simp at hr
      · split at hres
        · cases hres; simp at hr
        · split at hres
          · cases hres; simp at hr
          · split at hres
            · cases hres; simp at hr
            · split at hres
              · cases hres; simp at hr
              · split at hres
                · cases hres; simp at hr
                · have hall2 : ∀ e ∈ (acceptYield st t).events, isTokEvent e = true := by
                    rw [acceptYield_events]
                    intro e he
                    rcases List.mem_append.mp he with he | he
                    · exact hall e he
                    · rcases List.mem_singleton.mp he with rfl
                      rfl
                  have := ih (acceptYield st t) msg hall2 (by rw [hres]; exact hr)
                  rwa [hres] at this

/-! ## Decomposition of `generateStreamModel` -/

theorem genModel_events (mt : Nat) (history : List Turn) (stream : List StreamItem) :
    (generateStreamModel mt history stream).events
      = (runLoop mt initSt stream).1.events ++ [Event.done] := by
  rw [generateStreamModel]
  rcases hr : runLoop mt initSt stream with ⟨st, r⟩
  cases r <;> first
    | rfl
    | (split <;> first
        | (rename_i heq; cases heq)
        | rfl
        | (split <;> rfl))

theorem genModel_final_response (mt : Nat) (history : List Turn)
    (stream : List StreamItem) :
    (generateStreamModel mt history stream).final_response
      = (runLoop mt initSt stream).1.full_response := by
  rw [generateStreamModel]
  rcases hr : runLoop mt initSt stream with ⟨st, r⟩
  cases r <;> first
    | rfl
    | (split <;> first
        | (rename_i heq; cases heq)
        | rfl
        | (split <;> rfl))

theorem genModel_reason (mt : Nat) (history : List Turn) (stream : List StreamItem) :
    (generateStreamModel mt history stream).reason = (runLoop mt initSt stream).2 := by
  rw [generateStreamModel]
  rcases hr : runLoop mt initSt stream with ⟨st, r⟩
  cases r <;> first
    | rfl
    | (split <;> first
        | (rename_i heq; cases heq)
        | rfl
        | (split <;> rfl))

theorem genModel_history (mt : Nat) (history : List Turn) (stream : List StreamItem) :
    (generateStreamModel mt history stream).history = history ∨
    (pyStrip (runLoop mt initSt stream).1.full_response ≠ "" ∧
     (generateStreamModel mt history stream).history
       = history ++ [⟨.assistant,
           cleanResponse (runLoop mt initSt stream).1.full_response⟩]) := by
  rw [generateStreamModel]
  rcases hr : runLoop mt initSt stream with ⟨st, r⟩
  cases r <;> first
    | exact Or.inl rfl
    | (split <;> first
        | (rename_i heq; cases heq)
        | exact Or.inl rfl
        | (split
           · rename_i hne
             exact Or.inr ⟨hne, rfl⟩
           · exact Or.inl rfl))

theorem genModel_history_errored (mt : Nat) (history : List Turn)
    (stream : List StreamItem) (msg : String)
    (h : (runLoop mt initSt stream).2 = .errored msg) :
    (generateStreamModel mt history stream).history = history := by
  rw [generateStreamModel]
  rcases hr : runLoop mt initSt stream with ⟨st, r⟩
  rw [hr] at h
  cases r <;> first
    | rfl
    | simp at h

/-! ## Cleanup acts trivially on a response with no leaked delimiter -/

theorem foldl_removeAll_id {s : String} (ts : List String)
    (h : ∀ p ∈ ts, containsSubstr s p = false) :
    ts.foldl (fun acc t => pyRemoveAll acc t) s = s := by
  induction ts with
  | nil => rfl
  | cons a ts ih =>
    rw [List.foldl_cons, pyRemoveAll_of_not_contains (h a (List.mem_cons_self a ts))]
    exact ih fun p hp => h p (List.mem_cons_of_mem a hp)

theorem pyEndsWith_false_of_not_contains {s q c : String}
    (h : containsSubstr s q = false) (hin : c.data <:+: s.data) :
    pyEndsWith c q = false := by
  cases he : pyEndsWith c q
  · rfl
  · exfalso
    rw [containsSubstr_false] at h
    exact h ((pyEndsWith_iff.mp he).isInfix.trans hin)

/-! # Claim theorems -/

/-- C10: if, at termination of the streaming loop, the accumulated response
text is empty or consists only of whitespace, then no assistant Turn is
appended: the conversation history after the termination step is exactly the
history before it. -/
theorem c10_empty_response (mt : Nat) (history : List Turn)
    (stream : List StreamItem)
    (h : pyStrip (generateStreamModel mt history stream).final_response = "") :
    (generateStreamModel mt history stream).history = history := by
  rcases genModel_history mt history stream with h1 | ⟨hne, -⟩
  · exact h1
  · rw [genModel_final_response] at h
    exact absurd h hne

/-- Witness for C10 at a concrete whitespace-only stream. -/
theorem c10_empty_response_witness :
    (generateStreamModel 5 [] [StreamItem.item " " false]).history = [] :=
  c10_empty_response 5 [] [StreamItem.item " " false] (by decide)

/-- C4: a failure raised by the inference engine mid-stream is caught, an
error frame is emitted, no assistant Turn is appended for that attempt (the
partial output is discarded), and the stream still ends with a done frame. -/
theorem c4_error_discards (mt : Nat) (history : List Turn)
    (stream : List StreamItem) (msg : String)
    (h : (generateStreamModel mt history stream).reason = .errored msg) :
    (generateStreamModel mt history stream).history = history ∧
    ∃ es, (generateStreamModel mt history stream).events
        = es ++ [Event.err msg, Event.done] ∧ ∀ e ∈ es, isTokEvent e = true := by
  rw [genModel_reason] at h
  refine ⟨genModel_history_errored mt history stream msg h, ?_⟩
  obtain ⟨es, hes, htok⟩ :=
    runLoop_errored mt stream initSt msg (by intro e he; cases he) h
  exact ⟨es, by rw [genModel_events, hes, List.append_assoc]; rfl, htok⟩

/-- Witness for C4 at a concrete failing stream. -/
theorem c4_error_discards_witness :
    (generateStreamModel 5 [] [StreamItem.raise "boom"]).history = [] ∧
    ∃ es, (generateStreamModel 5 [] [StreamItem.raise "boom"]).events
        = es ++ [Event.err "boom", Event.done] ∧ ∀ e ∈ es, isTokEvent e = true :=
  c4_error_discards 5 [] [StreamItem.raise "boom"] "boom" (by decide)

/-- C3: compaction leaves the history unchanged whenever the turn count is at
most 100; with exactly 101 turns it yields 51 turns: one synthetic system
summary turn followed by the last 50 original turns verbatim and in order. -/
theorem c3_compaction (summarize : List Turn → String) (system_prompt : String)
    (history : List Turn) :
    (history.length ≤ 100 →
      compactContext summarize system_prompt history = history) ∧
    (history.length = 101 →
      compactContext summarize system_prompt history
          = ⟨.system, system_prompt ++ "\n\nStory context: "
                ++ summarize (history.take 51)⟩ :: history.drop 51 ∧
        (compactContext summarize system_prompt history).length = 51) := by
  constructor
  · intro h
    rw [compactContext, if_neg (by omega)]
  · intro h
    have hdrop : sliceLast 50 history = history.drop 51 := by
      rw [sliceLast, h]
    have htake : dropLastN 50 history = history.take 51 := by
      rw [dropLastN, h]
    have hne : history.take 51 ≠ [] := by
      intro hnil
      have := congrArg List.length hnil
      rw [List.length_take] at this
      simp [h] at this
    rw [compactContext, if_pos (by omega), htake, hdrop, if_pos hne]
    refine ⟨rfl, ?_⟩
    simp [List.length_drop, h]

/-- Witness for C3 at concrete histories of lengths 100 and 101. -/
theorem c3_compaction_witness :
    compactContext (fun _ => "S") "SP" (List.replicate 100 (Turn.mk .user "m"))
      = List.replicate 100 (Turn.mk .user "m") ∧
    (compactContext (fun _ => "S") "SP"
        (List.replicate 101 (Turn.mk .user "m"))).length = 51 :=
  ⟨(c3_compaction (fun _ => "S") "SP" _).1 (by simp),
   ((c3_compaction (fun _ => "S") "SP" _).2 (by simp)).2⟩

/-- C7: `Save(p)` followed by `Load()` returns `p` unchanged for every
payload, and `Load()` on an empty store returns the documented defaults. -/
theorem c7_save_load_roundtrip :
    (∀ (p : PyJson) (store : PrefStore),
      load_slider_preferences (save_slider_preferences p store) = Except.ok p) ∧
    load_slider_preferences PrefStore.missing = Except.ok defaultPreferences :=
  ⟨fun _ _ => rfl, rfl⟩

/-- C6 counterexample: on a corrupt (present but undecodable) preference
file, `load_slider_preferences` does not recover with the defaults — the
decode error propagates, because the `try` catches only
`FileNotFoundError`. -/
theorem c6_counterexample :
    load_slider_preferences PrefStore.corrupt
      = Except.error "json.decoder.JSONDecodeError" ∧
    ∀ v : PyJson, load_slider_preferences PrefStore.corrupt ≠ Except.ok v :=
  ⟨rfl, fun _ h => Except.noConfusion h⟩

/-- C6 amended: a missing store falls back to the hard-coded defaults
(temperature 0.7, top_p 0.9, top_k 50, repetition_penalty 1.1,
max_tokens 1024), but a corrupt store raises the JSON decode error. -/
theorem c6_amended_load :
    load_slider_preferences PrefStore.missing = Except.ok defaultPreferences ∧
    load_slider_preferences PrefStore.corrupt
      = Except.error "json.decoder.JSONDecodeError" :=
  ⟨rfl, rfl⟩

/-- C5 counterexample: the payload `{"foo": 1}` is not a well-formed mapping
of the five recognized keys, yet the save endpoint accepts it with HTTP 200
and overwrites the store with it. -/
theorem c5_counterexample :
    wellFormedPrefs (PyJson.pyobj [("foo", PyJson.pynum 1)]) = false ∧
    save_preferences (PyJson.pyobj [("foo", PyJson.pynum 1)]) PrefStore.missing
      = (200, PrefStore.stored (PyJson.pyobj [("foo", PyJson.pynum 1)])) ∧
    PrefStore.stored (PyJson.pyobj [("foo", PyJson.pynum 1)])
      ≠ PrefStore.missing := by
  refine ⟨by decide, ?_, fun h => PrefStore.noConfusion h⟩
  rw [save_preferences, if_neg]
  · rfl
  · rintro (h | h) <;> exact absurd h (by decide)

/-- C5 amended: the endpoint rejects exactly the falsy or non-dict payloads
(HTTP 400, store untouched); every truthy JSON object — whatever its keys —
is accepted and overwrites the store. -/
theorem c5_amended_validation (p : PyJson) (store : PrefStore) :
    (pyTruthy p = false ∨ isDict p = false →
      save_preferences p store = (400, store)) ∧
    (pyTruthy p = true → isDict p = true →
      save_preferences p store = (200, PrefStore.stored p)) := by
  constructor
  · intro h
    rw [save_preferences, if_pos h]
  · intro h1 h2
    rw [save_preferences, if_neg]
    · rfl
    · rintro (h | h) <;> simp_all

/-- Witness for C5 amended, at one accepted and one rejected payload. -/
theorem c5_amended_validation_witness :
    save_preferences (PyJson.pyobj [("temperature", PyJson.pynum (0.7 : ℚ))])
        PrefStore.missing
      = (200, PrefStore.stored
          (PyJson.pyobj [("temperature", PyJson.pynum (0.7 : ℚ))])) ∧
    save_preferences PyJson.pynull PrefStore.missing = (400, PrefStore.missing) :=
  ⟨(c5_amended_validation _ _).2 rfl rfl,
   (c5_amended_validation _ _).1 (Or.inl rfl)⟩

/-- C8 counterexample: when the fresh `random.randint(1, 1000000)` draw
happens to equal the prior seed (both 5 here), regeneration leaves the seed
unchanged — the code never enforces a different seed.  The trailing
assistant turn is still removed. -/
theorem c8_counterexample :
    regenerateStep 5 5 [Turn.mk .user "hi", Turn.mk .assistant "yo"] true "x"
      = (5, [Turn.mk .user "hi"]) := by decide

/-- C8 amended: regeneration removes exactly the one trailing assistant turn
(all earlier turns unchanged) and replaces the seed by the fresh draw, which
is not guaranteed to differ from the prior seed. -/
theorem c8_amended_regenerate (draw seed : Nat) (history : List Turn)
    (input : String) (t : Turn)
    (hlast : history.getLast? = some t) (hrole : t.role = .assistant) :
    (regenerateStep draw seed history true input).2 ++ [t] = history ∧
    (regenerateStep draw seed history true input).1 = draw := by
  have hne : history ≠ [] := by
    rintro rfl
    simp at hlast
  refine ⟨?_, rfl⟩
  have hget : t = history.getLast hne := by
    rw [List.getLast?_eq_getLast history hne] at hlast
    exact (Option.some_injective _ hlast).symm
  rw [regenerateStep, if_pos rfl]
  show (match history.getLast? with
    | some u => if u.role = .assistant then history.dropLast else history
    | none => history) ++ [t] = history
  rw [hlast]
  show (if t.role = .assistant then history.dropLast else history) ++ [t] = history
  rw [if_pos hrole, hget]
  exact List.dropLast_append_getLast hne

/-- Witness for C8 amended, at a concrete two-turn history. -/
theorem c8_amended_regenerate_witness :
    (regenerateStep 7 5 [Turn.mk .user "hi", Turn.mk .assistant "yo"] true "x").2
        ++ [Turn.mk .assistant "yo"]
      = [Turn.mk .user "hi", Turn.mk .assistant "yo"] ∧
    (regenerateStep 7 5 [Turn.mk .user "hi", Turn.mk .assistant "yo"] true "x").1
      = 7 :=
  c8_amended_regenerate 7 5 _ "x" (Turn.mk .assistant "yo") (by decide) rfl

/-- C2 counterexample: the accumulated text comes to contain "User:" (via
the second chunk, which is withheld), yet the persisted assistant turn is
"xUser:" — it ends with the role marker "User:".  The first chunk smuggles
the fragments past the streaming pattern check using the "<|user|>"
delimiter, which only the persistence cleanup removes, splicing "User:"
together. -/
theorem c2_counterexample :
    (generateStreamModel 100 []
        [StreamItem.item "xUse<|user|>r:Use<|user|>r:" false,
         StreamItem.item "User:" false]).history
      = [Turn.mk .assistant "xUser:"] ∧
    pyEndsWith "xUser:" "User:" = true ∧
    containsSubstr ("xUse<|user|>r:Use<|user|>r:" ++ "User:") "User:" = true := by
  decide

/-- C2 amended: the concatenation of the token frames delivered to the
client never contains "User:" (the stream halts before such a token is
emitted); and provided the accumulated text contains none of the
cleanup-only delimiters `<|assistant|>`, `<|user|>`, `<|system|>` (whose
removal at persistence can splice a role marker together), any turn the
attempt appends never ends with "User:", "Assistant:" or "Human:". -/
theorem c2_amended_no_role_leak (mt : Nat) (history : List Turn)
    (stream : List StreamItem) :
    containsSubstr (tokensText (generateStreamModel mt history stream).events)
        "User:" = false ∧
    (cleanupFree (generateStreamModel mt history stream).final_response = true →
      ∀ t ∈ (generateStreamModel mt history stream).history,
        t ∈ history ∨
          (pyEndsWith t.content "User:" = false ∧
           pyEndsWith t.content "Assistant:" = false ∧
           pyEndsWith t.content "Human:" = false)) := by
  have hfree : patternFree (runLoop mt initSt stream).1.full_response = true :=
    runLoop_patternFree mt stream initSt (by decide)
  have hU : containsSubstr (runLoop mt initSt stream).1.full_response
      "User:" = false := by
    have := (List.all_eq_true.mp hfree) "User:" (by decide)
    simpa using this
  have hA : containsSubstr (runLoop mt initSt stream).1.full_response
      "Assistant:" = false := by
    have := (List.all_eq_true.mp hfree) "Assistant:" (by decide)
    simpa using this
  have hH : containsSubstr (runLoop mt initSt stream).1.full_response
      "Human:" = false := by
    have := (List.all_eq_true.mp hfree) "Human:" (by decide)
    simpa using this
  constructor
  · have hpre := runLoop_events_text mt stream initSt rfl
    rw [genModel_events, tokensText_append,
      show tokensText [Event.done] = "" from rfl, str_append_empty]
    exact containsSubstr_false_mono hpre.isInfix hU
  · intro hclean t ht
    rw [genModel_final_response] at hclean
    rcases genModel_history mt history stream with hh | ⟨-, hh⟩
    · rw [hh] at ht
      exact Or.inl ht
    · rw [hh] at ht
      rcases List.mem_append.mp ht with ht | ht
      · exact Or.inl ht
      · obtain rfl := List.mem_singleton.mp ht
        right
        have hsub : ∀ p ∈ cleanup_template_tokens,
            p ∈ stop_patterns ++ chat_template_tokens
              ∨ p ∈ extra_template_tokens := by decide
        have habs : ∀ p ∈ cleanup_template_tokens,
            containsSubstr
              (pyStrip (runLoop mt initSt stream).1.full_response) p = false := by
          intro p hp
          apply containsSubstr_false_mono (pyStrip_data_sub _)
          rcases hsub p hp with hin | hin
          · have := (List.all_eq_true.mp hfree) p hin
            simpa using this
          · have := (List.all_eq_true.mp hclean) p hin
            simpa using this
        have hinfix : (cleanResponse
              (runLoop mt initSt stream).1.full_response).data
            <:+: (runLoop mt initSt stream).1.full_response.data := by
          rw [cleanResponse, foldl_removeAll_id _ habs]
          exact (foldl_roleStrip_shrinks role_patterns _).trans
            (pyStrip_data_sub _)
        exact ⟨pyEndsWith_false_of_not_contains hU hinfix,
               pyEndsWith_false_of_not_contains hA hinfix,
               pyEndsWith_false_of_not_contains hH hinfix⟩

/-- Witness for C2 amended at a concrete one-chunk stream. -/
theorem c2_amended_no_role_leak_witness :
    containsSubstr (tokensText (generateStreamModel 9 []
        [StreamItem.item "hello" false]).events) "User:" = false ∧
    (Turn.mk .assistant "hello" ∈ ([] : List Turn) ∨
      (pyEndsWith "hello" "User:" = false ∧
       pyEndsWith "hello" "Assistant:" = false ∧
       pyEndsWith "hello" "Human:" = false)) :=
  ⟨(c2_amended_no_role_leak 9 [] [StreamItem.item "hello" false]).1,
   (c2_amended_no_role_leak 9 [] [StreamItem.item "hello" false]).2 (by decide)
     (Turn.mk .assistant "hello") (by decide)⟩

/-- C1 counterexample: with `max_tokens = 10` against an unbounded harmless
stream, only 9 token frames are delivered before `done`: the hard-limit
check runs before the yield, so the 10th accepted token is counted and
stored but never emitted. -/
theorem c1_counterexample :
    ((generateStreamModel 10 [] c1DemoStream).events.countP isTokEvent) = 9 ∧
    (generateStreamModel 10 [] c1DemoStream).events.getLast?
      = some Event.done := by
  decide

/-- C1 amended: with requested `max_tokens = n` (here `1 ≤ n ≤ 75`, keeping
the repetition and wrap-up heuristics out of range) against an engine stream
of at least `n` chunks that trigger no other stop heuristic, the client
receives exactly the first `n - 1` tokens as frames, followed by `done`. -/
theorem c1_amended_hard_limit (n : Nat) (history : List Turn)
    (stream : List StreamItem)
    (h1 : 1 ≤ n) (h2 : n ≤ 75) (hlen : n ≤ stream.length)
    (hsafe : (stream.take n).all safeItem = true) :
    (generateStreamModel n history stream).events
      = ((stream.take (n - 1)).map fun it => Event.tok (itemText it))
          ++ [Event.done] := by
  rw [genModel_events]
  have htake1 : (stream.take (n - 1)).all safeItem = true := by
    rw [List.all_eq_true] at hsafe ⊢
    intro it hit
    apply hsafe
    have heq : stream.take (n - 1) = (stream.take n).take (n - 1) := by
      rw [List.take_take, Nat.min_def, if_pos (by omega)]
    rw [heq] at hit
    exact List.take_subset _ _ hit
  have hlen1 : (stream.take (n - 1)).length = n - 1 := by
    rw [List.length_take]
    omega
  have hrun := runLoop_safe_append n (stream.take (n - 1)) initSt
      (stream.drop (n - 1)) htake1 rfl
      (by simp [initSt, hlen1]; omega)
      (by simp [initSt, hlen1]; omega)
  rw [List.take_append_drop] at hrun
  have hidx : n - 1 < stream.length := by omega
  have hm : n - 1 + 1 = n := by omega
  have hdrop : stream.drop (n - 1) = stream[n - 1] :: stream.drop n := by
    rw [List.drop_eq_getElem_cons hidx, hm]
  have hmem : stream[n - 1] ∈ stream.take n := by
    have hidx2 : n - 1 < (stream.take n).length := by
      rw [List.length_take]
      omega
    have heq : (stream.take n).get ⟨n - 1, hidx2⟩ = stream[n - 1] :=
      List.getElem_take _
    rw [← heq]
    exact List.get_mem _ _ hidx2
  obtain ⟨t, hteq, hts⟩ := safeItem_elim ((List.all_eq_true.mp hsafe) _ hmem)
  have hadv_tc : (advance initSt (stream.take (n - 1))).token_count = n - 1 := by
    rw [advance_token_count, hlen1]
    simp [initSt]
  have hadv_safe : safeText (advance initSt (stream.take (n - 1))).full_response
      = true := advance_safeText _ _ htake1 rfl
  have hadv_ev : (advance initSt (stream.take (n - 1))).events
      = (stream.take (n - 1)).map fun it => Event.tok (itemText it) := by
    rw [advance_events]
    simp [initSt]
  have hpair : ∀ r : BreakReason,
      ((stepAccept (advance initSt (stream.take (n - 1))) t, r)).1.events
        = (advance initSt (stream.take (n - 1))).events := fun _ => rfl
  rw [hrun, hdrop, hteq, runLoop]
  rw [stop_any_false_of_safe (safeText_append hadv_safe hts),
      template_any_false_of_safe (safeText_append hadv_safe hts)]
  simp only [Bool.false_eq_true, if_false]
  by_cases hrep : ((stepAccept (advance initSt (stream.take (n - 1))) t).token_count > 50 ∧
      (stepAccept (advance initSt (stream.take (n - 1))) t).token_count % 25 = 0 ∧
      repTrigger (stepAccept (advance initSt (stream.take (n - 1))) t).last_50_tokens
        = true)
  · rw [if_pos hrep, hpair, hadv_ev]
  · rw [if_neg hrep,
        if_neg (by
          rintro ⟨hc, -, -⟩
          rw [stepAccept_token_count, hadv_tc] at hc
          omega),
        if_pos (by rw [stepAccept_token_count, hadv_tc]; omega),
        hpair, hadv_ev]

/-- Witness for C1 amended at `n = 10` against a 12-chunk stream. -/
theorem c1_amended_hard_limit_witness :
    (generateStreamModel 10 [] c1DemoStream).events
      = ((c1DemoStream.take 9).map fun it => Event.tok (itemText it))
          ++ [Event.done] :=
  c1_amended_hard_limit 10 [] c1DemoStream (by decide) (by decide) (by decide)
    (by decide)

/-- C9 counterexample: a generator that repeats the 2-word phrase for exactly
60 tokens ends by stream exhaustion after 60 emitted tokens — before the
first repetition check point at token 75 — so the repetition stop never
fires. -/
theorem c9_counterexample :
    (generateStreamModel 1024 [] (repStream 60)).reason
        = BreakReason.exhausted ∧
    ((generateStreamModel 1024 [] (repStream 60)).events.countP isTokEvent)
        = 60 := by
  have hall : (repStream 60).all safeItem = true := by decide
  have hrun := runLoop_safe_append 1024 (repStream 60) initSt [] hall rfl
      (by decide) (by decide)
  rw [List.append_nil] at hrun
  constructor
  · rw [genModel_reason, hrun]
    rfl
  · rw [genModel_events, hrun,
      show (runLoop 1024 (advance initSt (repStream 60)) []).1
        = advance initSt (repStream 60) from rfl]
    show ((advance initSt (repStream 60)).events ++ [Event.done]).countP
        isTokEvent = 60
    decide

/-- C9 amended: an engine stream that repeats the 2-word phrase indefinitely
(here: 80 chunks) triggers the repetition stop exactly at the first check
point at or after token 75: the unique-word ratio of the last 40 window
tokens is 2/40 < 0.25, the loop stops with reason `repetition` while
consuming token 75, and 74 token frames were delivered. -/
theorem c9_amended_repetition_stop :
    (generateStreamModel 1024 [] (repStream 80)).reason
        = BreakReason.repetition ∧
    ((generateStreamModel 1024 [] (repStream 80)).events.countP isTokEvent)
        = 74 := by
  have hall : ((repStream 80).take 74).all safeItem = true := by decide
  have hrun := runLoop_safe_append 1024 ((repStream 80).take 74) initSt
      ((repStream 80).drop 74) hall rfl (by decide) (by decide)
  rw [List.take_append_drop] at hrun
  have hdrop : (repStream 80).drop 74
      = StreamItem.item "alpha " false :: (repStream 80).drop 75 := by decide
  have hadv_tc : (advance initSt ((repStream 80).take 74)).token_count = 74 := by
    decide
  have hrep : repTrigger (stepAccept (advance initSt ((repStream 80).take 74))
      "alpha ").last_50_tokens = true := by decide
  have hsafe1 : safeText (advance initSt ((repStream 80).take 74)).full_response
      = true := by decide
  have hfinal : runLoop 1024 initSt (repStream 80)
      = (stepAccept (advance initSt ((repStream 80).take 74)) "alpha ",
         BreakReason.repetition) := by
    rw [hrun, hdrop, runLoop]
    rw [stop_any_false_of_safe (safeText_append hsafe1 (by decide)),
        template_any_false_of_safe (safeText_append hsafe1 (by decide))]
    simp only [Bool.false_eq_true, if_false]
    rw [if_pos ⟨by rw [stepAccept_token_count, hadv_tc]; omega,
                by rw [stepAccept_token_count, hadv_tc],
                hrep⟩]
  constructor
  · rw [genModel_reason, hfinal]
  · rw [genModel_events, hfinal]
    show ((stepAccept (advance initSt ((repStream 80).take 74)) "alpha ").events
        ++ [Event.done]).countP isTokEvent = 74
    decide

end WebChat
